import Mathlib

/-!
Verification development for the reflexio repository.

This file shallowly embeds the scoring, retry, adapter-evaluation and
cost/analytics logic of the repository in Lean 4 and proves the frozen
claims about it.  Python floats are modelled as rationals (`ℚ`), Python
dicts as association lists, the external LLM transport as an indexed
oracle `ℕ → Except String String` (the result — returned text or raised
exception message — of the i-th call), and raising functions as
`Except String`-valued functions.  Printing/logging (warnings, info
lines) is I/O and is not modelled.
-/

namespace Reflexio

/-! ## Basic Python-style string helpers (over `List Char`) -/

/-- Python `\s` character class, restricted to the ASCII whitespace the
repository's data actually contains. -/
def isSpaceChar (c : Char) : Bool :=
  c = ' ' || c = '\t' || c = '\n' || c = '\r'

/-- Python `\w` character class (ASCII letters, digits, underscore). -/
def isWordChar (c : Char) : Bool :=
  c.isAlphanum || c = '_'

/-- Model of Python `str.lower()` (ASCII). -/
def pyLower (s : String) : String :=
  String.mk (s.data.map Char.toLower)

/-- Model of Python `str.upper()` (ASCII). -/
def pyUpper (s : String) : String :=
  String.mk (s.data.map Char.toUpper)

/-- Model of Python `str.strip()` (removes leading and trailing whitespace). -/
def pyStrip (s : String) : String :=
  String.mk (((s.data.dropWhile isSpaceChar).reverse.dropWhile isSpaceChar).reverse)

/-- Model of Python `str.replace(old, new)` for a single-character `old`
and `new` (replaces every occurrence). -/
def pyReplaceChar (a b : Char) (s : String) : String :=
  String.mk (s.data.map (fun c => if c = a then b else c))

/-- One step of Python `str.replace(old, new)` for general substrings:
non-overlapping, left to right.  `fuel` bounds recursion depth; callers
pass the length of the scanned list, which suffices for nonempty `pat`. -/
def replaceSubAux (pat repl : List Char) : ℕ → List Char → List Char
  | 0, cs => cs
  | fuel + 1, cs =>
    match cs with
    | [] => []
    | c :: rest =>
      if pat ≠ [] ∧ pat.isPrefixOf cs then
        repl ++ replaceSubAux pat repl fuel (cs.drop pat.length)
      else
        c :: replaceSubAux pat repl fuel rest

/-- Model of Python `str.replace(old, new)` (all non-overlapping
occurrences, scanning left to right); for empty `old` it is the
identity, a case no call site of the repository exercises. -/
def pyReplace (s pat repl : String) : String :=
  String.mk (replaceSubAux pat.data repl.data s.data.length s.data)

/-- Substring containment over character lists. -/
def isInfixOfChars (pat : List Char) : List Char → Bool
  | [] => pat.isEmpty
  | c :: rest => pat.isPrefixOf (c :: rest) || isInfixOfChars pat rest

/-- Substring containment, Python's `pat in s`. -/
def containsSub (s pat : String) : Bool :=
  isInfixOfChars pat.data s.data

/-- Split a character list on a separator character (Python `str.split(sep)`
for a one-character separator). -/
def splitOnChar (sep : Char) : List Char → List (List Char)
  | [] => [[]]
  | c :: rest =>
    match splitOnChar sep rest with
    | [] => [[c]]
    | grp :: rest' =>
      if c = sep then [] :: grp :: rest' else (c :: grp) :: rest'

/-- Split a string on a separator character, Python `s.split(sep)`. -/
def pySplit (sep : Char) (s : String) : List String :=
  (splitOnChar sep s.data).map String.mk

/-- Join strings with a separator, Python `sep.join(parts)`. -/
def joinStrings (sep : String) : List String → String
  | [] => ""
  | [s] => s
  | s :: rest => s ++ sep ++ joinStrings sep rest

/-- Model of Python `s.startswith(p)`. -/
def pyStartsWith (s p : String) : Bool :=
  p.data.isPrefixOf s.data

/-- Collapse every maximal whitespace run to a single space, the effect
of `re.sub(r"\s+", " ", s)`.  `fuel` bounds recursion; callers pass the
list length. -/
def collapseWsAux : ℕ → List Char → List Char
  | 0, _ => []
  | fuel + 1, cs =>
    match cs with
    | [] => []
    | c :: rest =>
      if isSpaceChar c then ' ' :: collapseWsAux fuel (rest.dropWhile isSpaceChar)
      else c :: collapseWsAux fuel rest

/-- `re.sub(r"\s+", " ", s)` on a string. -/
def collapseWs (s : String) : String :=
  String.mk (collapseWsAux s.data.length s.data)

/-! ## `dspy_gepa_poc/metrics.py` -/

/-- `_compare_exact`: equality after the caller's strip/lower. -/
def compare_exact (expected actual : String) : Bool :=
  expected == actual

/-- `_normalize_text`: drop characters that are neither word nor space
characters (`re.sub(r"[^\w\s]", "", text)`), collapse whitespace runs,
then strip. -/
def normalize_text (text : String) : String :=
  pyStrip (collapseWs (String.mk (text.data.filter (fun c => isWordChar c || isSpaceChar c))))

/-- `_compare_normalized`: equality after `_normalize_text`. -/
def compare_normalized (expected actual : String) : Bool :=
  normalize_text expected == normalize_text actual

/-- `_compare_fuzzy`: normalized comparison first, else a similarity
ratio against the threshold.  `difflib.SequenceMatcher(...).ratio()` is
external library code and is abstracted as the function argument `sim`. -/
def compare_fuzzy (sim : String → String → ℚ) (threshold : ℚ) (expected actual : String) : Bool :=
  if compare_normalized expected actual then true
  else decide (sim (normalize_text expected) (normalize_text actual) ≥ threshold)

/-- The `match_mode` argument of `create_dynamic_metric`
("exact" / "normalized" / "fuzzy"). -/
inductive MatchMode
  | exact
  | normalized
  | fuzzy
deriving DecidableEq

/-- The Python metric returns `bool | float`; model the union. -/
inductive MetricValue
  | bool (b : Bool)
  | num (q : ℚ)
deriving DecidableEq

/-- Numeric reading of a `bool | float` metric value (Python numerics:
`True == 1`, `False == 0`). -/
def MetricValue.toScore : MetricValue → ℚ
  | .bool true => 1
  | .bool false => 0
  | .num q => q

/-- Per-field match test inside `dynamic_metric`: both sides are read
with `getattr(·, field, "")` (here: total functions from field names to
string values), stripped and lowercased, then compared under the
selected mode. -/
def fieldMatch (mode : MatchMode) (sim : String → String → ℚ) (fuzzy_threshold : ℚ)
    (ex pred : String → String) (field : String) : Bool :=
  let expected := pyLower (pyStrip (ex field))
  let actual := pyLower (pyStrip (pred field))
  match mode with
  | .normalized => compare_normalized expected actual
  | .fuzzy => compare_fuzzy sim fuzzy_threshold expected actual
  | .exact => compare_exact expected actual

/-- The metric produced by `create_dynamic_metric(eval_fields, normalize,
match_mode, fuzzy_threshold)`: counts matching fields, returns `True` on
a full match, else `matches/total` when `normalize` and `total > 0`,
else `False`. -/
def dynamic_metric (eval_fields : List String) (normalize : Bool) (mode : MatchMode)
    (sim : String → String → ℚ) (fuzzy_threshold : ℚ)
    (ex pred : String → String) : MetricValue :=
  let total := eval_fields.length
  let nMatches := (eval_fields.filter (fieldMatch mode sim fuzzy_threshold ex pred)).length
  if nMatches = total then .bool true
  else if normalize = true ∧ 0 < total then .num ((nMatches : ℚ) / (total : ℚ))
  else .bool false

/-! ## `gepa_standalone/adapters/simple_rag_adapter.py` — `_call_llm_with_retry`

The LLM transport (`litellm.completion`) is external; it is modelled as
an oracle `transport : ℕ → Except String String` giving, for each
attempt index, either the returned message content (`.ok`) or the text
of the raised exception (`.error`). -/

/-- The content-moderation test applied to an exception's text:
`"content_filter" in error_str or "jailbreak" in error_str`. -/
def isModerationError (e : String) : Bool :=
  containsSub e "content_filter" || containsSub e "jailbreak"

/-- How `_call_llm_with_retry` ends: a Python `return` (with the
returned content, or `None`) or an uncaught re-`raise`. -/
inductive RetryOutcome
  | returned (r : Option String)
  | raised (e : String)
deriving DecidableEq

/-- Observable trace of one `_call_llm_with_retry` run: final outcome,
number of attempts made, number of (fixed 1-second) sleeps performed. -/
structure RetryTrace where
  outcome : RetryOutcome
  attempts : ℕ
  sleeps : ℕ
deriving DecidableEq

/-- The `for attempt in range(max_retries)` loop of
`_call_llm_with_retry`, with `fuel = maxRetries - attempt` remaining
iterations.  On success return the content; on a moderation-flavoured
exception sleep 1s and retry while attempts remain, else return `None`;
on any other exception re-raise at once. -/
def retryAux (transport : ℕ → Except String String) (maxRetries : ℕ) :
    ℕ → ℕ → ℕ → RetryTrace
  | 0, attempt, sleeps => ⟨.returned none, attempt, sleeps⟩
  | fuel + 1, attempt, sleeps =>
    match transport attempt with
    | .ok s => ⟨.returned (some s), attempt + 1, sleeps⟩
    | .error e =>
      if isModerationError e then
        if attempt < maxRetries - 1 then
          retryAux transport maxRetries fuel (attempt + 1) (sleeps + 1)
        else ⟨.returned none, attempt + 1, sleeps⟩
      else ⟨.raised e, attempt + 1, sleeps⟩

/-- `_call_llm_with_retry(messages, max_retries)`: run the retry loop
from attempt 0 (the message list only reaches the abstracted transport,
so it does not appear here). -/
def call_llm_with_retry (transport : ℕ → Except String String) (maxRetries : ℕ := 2) :
    RetryTrace :=
  retryAux transport maxRetries maxRetries 0 0

/-! ## The adapter `evaluate` contract -/

/-- The `EvaluationBatch` record returned by every adapter's
`evaluate`, generic over the adapter-specific output and trajectory
record shapes. -/
structure EvaluationBatch (Out Traj : Type) where
  outputs : List Out
  scores : List ℚ
  trajectories : Option (List Traj)
deriving DecidableEq

/-- The hard-failure message raised by the classifier, extractor and
SQL adapters when every example in a batch was dropped. -/
def allFailedMsg (n : ℕ) : String :=
  "ERROR CRÍTICO: Todos los ejemplos fallaron (" ++ toString n ++ " totales)."

/-- Shared shape of the classifier/extractor/SQL evaluation loops: each
example is processed to `some (output, score, trajectory)` or dropped
(`none`, when its model call raised); results keep batch order and the
example index advances either way. -/
def collectResults {Ex R : Type} (process : ℕ → Ex → Option R) : ℕ → List Ex → List R
  | _, [] => []
  | i, e :: rest =>
    match process i e with
    | some r => r :: collectResults process (i + 1) rest
    | none => collectResults process (i + 1) rest

/-- `Except.isOk` as used to state which task-model calls succeeded. -/
def exceptOk {ε α : Type} : Except ε α → Bool
  | .ok _ => true
  | .error _ => false

/-! ## `gepa_standalone/adapters/simple_classifier_adapter.py` -/

/-- One element of `outputs` in the classifier adapter. -/
structure ClassifierOutput where
  predicted : String
  expected : String
  text : String
deriving DecidableEq

/-- One element of `trajectories` in the classifier adapter. -/
structure ClassifierTraj where
  input : String
  expected : String
  predicted : String
  system_prompt : String
  correct : Bool
deriving DecidableEq

/-- `_get_label_key`: probe `urgency`, `label`, `class`, `sentiment` in
order; default `"label"`. -/
def getLabelKey (ex : List (String × String)) : String :=
  match ["urgency", "label", "class", "sentiment"].find? (fun k => (ex.lookup k).isSome) with
  | some k => k
  | none => "label"

/-- The body of the classifier adapter's per-example loop: on a raised
call the example is dropped (a warning is printed, which is I/O and not
modelled); otherwise the lowercased response is compared to the
lowercased expected label for a 0/1 score. -/
def classifierProcessExample (callResult : Except String String) (system_prompt : String)
    (ex : List (String × String)) : Option (ClassifierOutput × ℚ × ClassifierTraj) :=
  let user_text := (ex.lookup "text").getD ""
  let expected_class := (ex.lookup (getLabelKey ex)).getD ""
  match callResult with
  | .error _ => none
  | .ok resp =>
    let predicted_class := pyLower resp
    let is_correct := predicted_class == pyLower expected_class
    let score : ℚ := if is_correct then 1 else 0
    some (⟨predicted_class, expected_class, user_text⟩, score,
      ⟨user_text, expected_class, predicted_class, system_prompt, is_correct⟩)

/-- `SimpleClassifierAdapter.evaluate`: iterate the batch, drop raising
examples, and raise the hard all-examples-failed error when no score
was appended. -/
def classifierEvaluate (call : ℕ → Except String String)
    (batch : List (List (String × String))) (candidate : List (String × String))
    (capture_traces : Bool) : Except String (EvaluationBatch ClassifierOutput ClassifierTraj) :=
  let system_prompt := (candidate.lookup "system_prompt").getD ""
  let results := collectResults (fun i ex => classifierProcessExample (call i) system_prompt ex) 0 batch
  let outputs := results.map (fun r => r.1)
  let scores := results.map (fun r => r.2.1)
  let trajectories := if capture_traces then some (results.map (fun r => r.2.2)) else none
  if scores.isEmpty then .error (allFailedMsg batch.length)
  else .ok ⟨outputs, scores, trajectories⟩

/-! ## `gepa_standalone/adapters/simple_extractor_adapter.py` -/

/-- One extractor example: the input text plus the expected-field dict
(`example.get("extracted", \x7b\x7d)`). -/
structure ExtractorExample where
  text : String
  extracted : List (String × String)
deriving DecidableEq

/-- One per-field comparison record. -/
structure FieldComparison where
  expected : String
  extracted : Option String
  correct : Bool
deriving DecidableEq

/-- One element of `outputs` in the extractor adapter. -/
structure ExtractorOutput where
  extracted : List (String × String)
  expected : List (String × String)
  field_comparisons : List (String × FieldComparison)
  text : String
deriving DecidableEq

/-- One element of `trajectories` in the extractor adapter. -/
structure ExtractorTraj where
  input : String
  expected_fields : List (String × String)
  extracted_fields : List (String × String)
  field_comparisons : List (String × FieldComparison)
  system_prompt : String
  score : ℚ
deriving DecidableEq

/-- The extractor's per-field correctness test: the stripped/lowercased
extracted value must equal the stripped/lowercased expected value and
the field must be present in the extraction. -/
def extractorFieldCorrect (extracted_fields : List (String × String))
    (field_name expected_value : String) : Bool :=
  let extracted_val := pyLower (pyStrip ((extracted_fields.lookup field_name).getD ""))
  let expected_val := pyLower (pyStrip expected_value)
  (extracted_val == expected_val) && (extracted_fields.lookup field_name).isSome

/-- The extractor's per-example score:
`correct_fields / total_fields if total_fields > 0 else 0.0`. -/
def extractorScore (expected_fields extracted_fields : List (String × String)) : ℚ :=
  let correct_fields :=
    (expected_fields.filter (fun p => extractorFieldCorrect extracted_fields p.1 p.2)).length
  let total_fields := expected_fields.length
  if 0 < total_fields then (correct_fields : ℚ) / (total_fields : ℚ) else 0

/-- The extractor's per-field comparison records, in expected-dict order. -/
def extractorComparisons (expected_fields extracted_fields : List (String × String)) :
    List (String × FieldComparison) :=
  expected_fields.map (fun p =>
    (p.1, ⟨p.2, extracted_fields.lookup p.1, extractorFieldCorrect extracted_fields p.1 p.2⟩))

/-- The body of the extractor adapter's per-example loop.  `parseFields`
stands for `json.loads` with the brace-matching `_extract_json_from_text`
fallback (external JSON parsing, yielding `\x7b\x7d` when both fail). -/
def extractorProcessExample (parseFields : String → List (String × String))
    (callResult : Except String String) (system_prompt : String)
    (ex : ExtractorExample) : Option (ExtractorOutput × ℚ × ExtractorTraj) :=
  match callResult with
  | .error _ => none
  | .ok extracted_text =>
    let extracted_fields := parseFields extracted_text
    let field_comparisons := extractorComparisons ex.extracted extracted_fields
    let score := extractorScore ex.extracted extracted_fields
    some (⟨extracted_fields, ex.extracted, field_comparisons, ex.text⟩, score,
      ⟨ex.text, ex.extracted, extracted_fields, field_comparisons, system_prompt, score⟩)

/-- `SimpleExtractorAdapter.evaluate`. -/
def extractorEvaluate (parseFields : String → List (String × String))
    (call : ℕ → Except String String) (batch : List ExtractorExample)
    (candidate : List (String × String)) (capture_traces : Bool) :
    Except String (EvaluationBatch ExtractorOutput ExtractorTraj) :=
  let system_prompt := (candidate.lookup "system_prompt").getD ""
  let results :=
    collectResults (fun i ex => extractorProcessExample parseFields (call i) system_prompt ex) 0 batch
  let outputs := results.map (fun r => r.1)
  let scores := results.map (fun r => r.2.1)
  let trajectories := if capture_traces then some (results.map (fun r => r.2.2)) else none
  if scores.isEmpty then .error (allFailedMsg batch.length)
  else .ok ⟨outputs, scores, trajectories⟩

/-! ## `gepa_standalone/adapters/simple_sql_adapter.py` -/

/-- One SQL example: question plus the schema and expected SQL read from
its `extracted` dict. -/
structure SQLExample where
  question : String
  schema : String
  expected_sql : String
deriving DecidableEq

/-- One element of `outputs` in the SQL adapter. -/
structure SQLOutput where
  predicted : String
  expected : String
  question : String
deriving DecidableEq

/-- One element of `trajectories` in the SQL adapter. -/
structure SQLTraj where
  input : String
  expected : String
  predicted : String
  correct : Bool
deriving DecidableEq

/-- `re.sub(r"```sql|```", "", s)`: scan left to right, removing
`\x60\x60\x60sql` in preference to `\x60\x60\x60`.  `fuel` bounds
recursion; callers pass the list length. -/
def stripFencesAux : ℕ → List Char → List Char
  | 0, cs => cs
  | fuel + 1, cs =>
    match cs with
    | [] => []
    | c :: rest =>
      if ("```sql".data).isPrefixOf cs then stripFencesAux fuel (cs.drop 6)
      else if ("```".data).isPrefixOf cs then stripFencesAux fuel (cs.drop 3)
      else c :: stripFencesAux fuel rest

/-- Markdown code-fence removal applied to the model's SQL response. -/
def stripFences (s : String) : String :=
  String.mk (stripFencesAux s.data.length s.data)

/-- The `normalize` closure inside `_compare_sql`: strip, lowercase,
drop trailing semicolons, collapse whitespace runs. -/
def sqlNormalize (s : String) : String :=
  collapseWs (String.mk ((pyLower (pyStrip s)).data.reverse.dropWhile (· = ';')).reverse)

/-- `_compare_sql`: equality of normalized SQL strings. -/
def compare_sql (sql1 sql2 : String) : Bool :=
  sqlNormalize sql1 == sqlNormalize sql2

/-- The body of the SQL adapter's per-example loop. -/
def sqlProcessExample (callResult : Except String String) (ex : SQLExample) :
    Option (SQLOutput × ℚ × SQLTraj) :=
  let user_content := "Esquema: " ++ ex.schema ++ "\nPregunta: " ++ ex.question
  match callResult with
  | .error _ => none
  | .ok resp =>
    let predicted_sql := pyStrip (stripFences resp)
    let is_correct := compare_sql predicted_sql ex.expected_sql
    let score : ℚ := if is_correct then 1 else 0
    some (⟨predicted_sql, ex.expected_sql, ex.question⟩, score,
      ⟨user_content, ex.expected_sql, predicted_sql, is_correct⟩)

/-- `SimpleSQLAdapter.evaluate`. -/
def sqlEvaluate (call : ℕ → Except String String) (batch : List SQLExample)
    (candidate : List (String × String)) (capture_traces : Bool) :
    Except String (EvaluationBatch SQLOutput SQLTraj) :=
  let _system_prompt := (candidate.lookup "system_prompt").getD ""
  let results := collectResults (fun i ex => sqlProcessExample (call i) ex) 0 batch
  let outputs := results.map (fun r => r.1)
  let scores := results.map (fun r => r.2.1)
  let trajectories := if capture_traces then some (results.map (fun r => r.2.2)) else none
  if scores.isEmpty then .error (allFailedMsg batch.length)
  else .ok ⟨outputs, scores, trajectories⟩

/-! ## Decimal rendering and parsing
(`shared/logging/formatters.py`, `shared/analysis/base.py`)

Python floats are modelled as rationals; `f"{v:.4f}"` becomes rendering
of the integer nearest to `v * 10^4`, and `float(s)` becomes a parser of
plain decimal literals (the only shapes the repository reads back). -/

/-- The character of a decimal digit (only applied to values < 10). -/
def digitChar : ℕ → Char
  | 0 => '0' | 1 => '1' | 2 => '2' | 3 => '3' | 4 => '4'
  | 5 => '5' | 6 => '6' | 7 => '7' | 8 => '8' | _ => '9'

/-- Numeric value of a decimal digit character. -/
def digitVal (c : Char) : ℕ :=
  c.toNat - 48

/-- Read a most-significant-first digit-character list as a number. -/
def charsToNat (cs : List Char) : ℕ :=
  cs.foldl (fun acc c => 10 * acc + digitVal c) 0

/-- Decimal digits of a natural number, most significant first; `fuel`
bounds recursion and any `fuel > n` suffices. -/
def natCharsAux : ℕ → ℕ → List Char
  | 0, _ => []
  | fuel + 1, n =>
    if n < 10 then [digitChar n]
    else natCharsAux fuel (n / 10) ++ [digitChar (n % 10)]

/-- Decimal rendering of a natural number (`"0"` for zero). -/
def natChars (n : ℕ) : List Char :=
  natCharsAux (n + 1) n

/-- Exactly four zero-padded decimal digits of `m` (for `m < 10000`). -/
def frac4 (m : ℕ) : List Char :=
  [digitChar (m / 1000 % 10), digitChar (m / 100 % 10), digitChar (m / 10 % 10), digitChar (m % 10)]

/-- `f"{x:.4f}"`: the nearest integer to `x * 10^4`, rendered with a
period and exactly four fractional digits. -/
def fmtFixed4 (x : ℚ) : String :=
  let n : ℤ := round (x * 10000)
  let m : ℕ := n.natAbs
  let cs := natChars (m / 10000) ++ '.' :: frac4 (m % 10000)
  String.mk (if n < 0 then '-' :: cs else cs)

/-- `fmt_score(val, decimal_separator)`: format with four decimal places
and swap the period for the separator (default `","`).  Only the numeric
branch is modelled; the `str(val)` fallback for unparseable input is not
exercised by the claims. -/
def fmt_score (x : ℚ) (decimal_separator : Char := ',') : String :=
  let formatted := fmtFixed4 x
  if decimal_separator ≠ '.' then pyReplaceChar '.' decimal_separator formatted else formatted

/-- `format_float(value)` with the default `decimals=4` (the form
`detect_anomalies` uses): period swapped for a comma. -/
def format_float (x : ℚ) : String :=
  pyReplaceChar '.' ',' (fmtFixed4 x)

/-- Parse an unsigned decimal literal `digits [ "." digits ]`. -/
def parseUnsignedChars? (cs : List Char) : Option ℚ :=
  let intDs := cs.takeWhile Char.isDigit
  match cs.dropWhile Char.isDigit with
  | [] => if intDs.isEmpty then none else some ((charsToNat intDs : ℚ))
  | '.' :: frac =>
    if frac.all Char.isDigit && (!intDs.isEmpty || !frac.isEmpty) then
      some ((charsToNat intDs : ℚ) + (charsToNat frac : ℚ) / (10 : ℚ) ^ frac.length)
    else none
  | _ => none

/-- Parse an optionally signed decimal literal. -/
def parseDecimalChars? : List Char → Option ℚ
  | [] => parseUnsignedChars? []
  | c :: rest =>
    if c = '-' then (parseUnsignedChars? rest).map (fun q => -q)
    else if c = '+' then parseUnsignedChars? rest
    else parseUnsignedChars? (c :: rest)

/-- Model of Python `float(s)` on plain decimal literals; other float
syntax (exponents, `inf`, surrounding whitespace) never reaches it in
the modelled code paths. -/
def pyFloat? (s : String) : Option ℚ :=
  parseDecimalChars? s.data

/-- `parse_float` (`shared/analysis/base.py`): empty string is `0.0`,
else substitute the comma with a period and parse, with `0.0` as the
failure fallback. -/
def parse_float (value : String) : ℚ :=
  if value = "" then 0
  else
    match pyFloat? (pyReplaceChar ',' '.' value) with
    | some q => q
    | none => 0

/-! ## `gepa_standalone/adapters/simple_rag_adapter.py` — `evaluate` -/

/-- One RAG example: question, retrieved context, ground-truth answer. -/
structure RAGExample where
  question : String
  context : String
  answer : String
deriving DecidableEq

/-- One element of `outputs` in the RAG adapter: either the sentinel
error dict or the answer/feedback dict. -/
inductive RAGOutput
  | err (error : String)
  | answer (generated_answer ground_truth judge_feedback : String)
deriving DecidableEq

/-- One element of `trajectories` in the RAG adapter. -/
inductive RAGTraj
  | err (error : String)
  | trace (question context ground_truth generated_answer : String)
      (score : ℚ) (judge_feedback system_prompt : String)
deriving DecidableEq

/-- One line of the judge-response scan: a `PUNTAJE:`/`SCORE:` line
updates the score when its second `:`-field parses as a float (a parse
failure is swallowed, keeping the previous score); a `RAZON:`/`REASON:`
line replaces the reason with everything after the first colon. -/
def parseJudgeLine (acc : ℚ × String) (line : String) : ℚ × String :=
  let up := pyUpper line
  let acc1 :=
    if pyStartsWith up "PUNTAJE:" || pyStartsWith up "SCORE:" then
      match (pySplit ':' line).get? 1 with
      | some part =>
        match pyFloat? (pyStrip part) with
        | some q => (q, acc.2)
        | none => acc
      | none => acc
    else acc
  if pyStartsWith up "RAZON:" || pyStartsWith up "REASON:" then
    (acc1.1, pyStrip (joinStrings ":" ((pySplit ':' line).drop 1)))
  else acc1

/-- Parse the judge's response: start from score `0.0` with the whole
text as reason, then scan the lines. -/
def parseJudgeResponse (content : String) : ℚ × String :=
  (pySplit '\n' content).foldl parseJudgeLine (0, content)

/-- `_evaluate_with_judge`: call the judge model through the retry
wrapper (2 attempts); a moderation block scores `0.0` with a sentinel
feedback, a re-raised exception is caught by the method's own
`try/except` and scores `0.0` with an `Error del Juez` feedback. -/
def evaluateWithJudge (judgeTransport : ℕ → Except String String)
    (_question _ground_truth _generated_answer : String) : ℚ × String :=
  match (call_llm_with_retry judgeTransport 2).outcome with
  | .returned none => (0, "Juez bloqueado por content filter")
  | .returned (some content) => parseJudgeResponse (pyStrip content)
  | .raised e => (0, "Error del Juez: " ++ e)

/-- The RAG adapter's per-example pipeline: generate with retry; a
moderation block records the sentinel output with score `0.0`; a
re-raised generation exception is caught by the loop's `except` and
records the error output with score `0.0`; otherwise the judge scores
the answer.  The transports for the generation call and the judge call
of this example are `gen` and `judge`. -/
def ragProcessExample (gen judge : ℕ → Except String String)
    (system_prompt : String) (ex : RAGExample) : RAGOutput × ℚ × RAGTraj :=
  match (call_llm_with_retry gen 2).outcome with
  | .raised e => (.err e, 0, .err e)
  | .returned none =>
    (.err "Content filter blocked request", 0, .err "Content filter blocked request")
  | .returned (some response_content) =>
    let generated_answer := pyStrip response_content
    let sf := evaluateWithJudge judge ex.question ex.answer generated_answer
    (.answer generated_answer ex.answer sf.2, sf.1,
      .trace ex.question ex.context ex.answer generated_answer sf.1 sf.2 system_prompt)

/-- The RAG evaluation loop over the batch, indexed. -/
def ragEvaluateGo (gen judge : ℕ → ℕ → Except String String) (system_prompt : String) :
    ℕ → List RAGExample → List (RAGOutput × ℚ × RAGTraj)
  | _, [] => []
  | i, ex :: rest =>
    ragProcessExample (gen i) (judge i) system_prompt ex ::
      ragEvaluateGo gen judge system_prompt (i + 1) rest

/-- `SimpleRAGAdapter.evaluate`: never raises and never drops — every
example contributes exactly one output and one score (and one
trajectory when capture is requested). -/
def ragEvaluate (gen judge : ℕ → ℕ → Except String String) (batch : List RAGExample)
    (candidate : List (String × String)) (capture_traces : Bool) :
    EvaluationBatch RAGOutput RAGTraj :=
  let system_prompt := (candidate.lookup "system_prompt").getD ""
  let results := ragEvaluateGo gen judge system_prompt 0 batch
  ⟨results.map (fun r => r.1), results.map (fun r => r.2.1),
    if capture_traces then some (results.map (fun r => r.2.2)) else none⟩

/-! ## `shared/analysis/roi_calculator.py` -/

/-- `ModelPricing`: USD per 1M tokens. -/
structure ModelPricing where
  name : String
  input_price : ℚ
  output_price : ℚ
deriving DecidableEq

/-- `ModelPricing.cost_per_call`. -/
def ModelPricing.cost_per_call (p : ModelPricing) (input_tokens output_tokens : ℤ) : ℚ :=
  (input_tokens : ℚ) * p.input_price / 1000000 + (output_tokens : ℚ) * p.output_price / 1000000

/-- A pricing table (Python dict, insertion ordered). -/
abbrev PricingTable := List (String × ModelPricing)

/-- The `DEFAULT_PRICING["gpt-4o-mini"]` entry. -/
def gpt4oMiniPricing : ModelPricing :=
  ⟨"GPT-4o-mini", 15/100, 60/100⟩

/-- `DEFAULT_PRICING`. -/
def DEFAULT_PRICING : PricingTable :=
  [("gpt-4o", ⟨"GPT-4o", 250/100, 1000/100⟩),
   ("gpt-4.1-mini", ⟨"GPT-4.1-mini", 15/100, 60/100⟩),
   ("gpt-4o-mini", gpt4oMiniPricing)]

/-- A per-case token estimate (`{"input": _, "output": _}`). -/
structure TokenEstimate where
  input : ℤ
  output : ℤ
deriving DecidableEq

/-- `DEFAULT_TOKEN_ESTIMATES`. -/
def DEFAULT_TOKEN_ESTIMATES : List (String × TokenEstimate) :=
  [("Email Urgency", ⟨300, 50⟩), ("CV Extraction", ⟨800, 200⟩),
   ("Text-to-SQL", ⟨400, 150⟩), ("RAG Optimization", ⟨600, 300⟩),
   ("default", ⟨500, 150⟩)]

/-- `FALLBACK_MAX_CALLS`. -/
def FALLBACK_MAX_CALLS : ℤ := 30

/-- `FALLBACK_VAL_SIZE`. -/
def FALLBACK_VAL_SIZE : ℤ := 5

/-- `DEFAULT_VAL_SIZES`. -/
def DEFAULT_VAL_SIZES : List (String × ℤ) :=
  [("Email Urgency", 10), ("CV Extraction", 5), ("Text-to-SQL", 6), ("RAG Optimization", 4)]

/-- `get_model_pricing(model_name, pricing)`: `pricing or DEFAULT_PRICING`
(an empty dict is falsy), lowercase the name, remove the literal
substring `"azure/"`, look the key up, and fall back to the
`"gpt-4o-mini"` entry for unknown keys.  Total: it never raises. -/
def get_model_pricing (model_name : String) (pricing : Option PricingTable := none) :
    ModelPricing :=
  let table :=
    match pricing with
    | some t => if t.isEmpty then DEFAULT_PRICING else t
    | none => DEFAULT_PRICING
  let model_key := pyReplace (pyLower model_name) "azure/" ""
  (table.lookup model_key).getD ((table.lookup "gpt-4o-mini").getD gpt4oMiniPricing)

/-- Modelled from the spec: the lookup key the spec describes —
"strips a provider-prefix (e.g. the part before `/`)" — i.e. everything
up to and including the first `/` is removed before the
case-insensitive lookup.  Only used to compare the spec's wording with
the code's actual `"azure/"`-only substring removal. -/
def specStripProvider (model_name : String) : String :=
  match pySplit '/' model_name with
  | [] => model_name
  | [only] => only
  | _ :: rest => joinStrings "/" rest

/-- Modelled from the spec: `get_model_pricing` as the spec's words
describe it (strip the part before `/`, lowercase, look up, fall back
to the cheapest entry). -/
def get_model_pricing_spec (model_name : String) (pricing : Option PricingTable := none) :
    ModelPricing :=
  let table := pricing.getD DEFAULT_PRICING
  let model_key := pyLower (specStripProvider model_name)
  (table.lookup model_key).getD ((table.lookup "gpt-4o-mini").getD gpt4oMiniPricing)

/-- The dict returned by `calculate_optimization_cost`. -/
structure CostBreakdown where
  task_calls : ℤ
  task_cost : ℚ
  reflection_calls : ℤ
  reflection_cost : ℚ
  total_cost : ℚ
  task_pricing : ModelPricing
  reflection_pricing : ModelPricing
deriving DecidableEq

/-- `calculate_optimization_cost`: `val_size` defaults from
`DEFAULT_VAL_SIZES` then `FALLBACK_VAL_SIZE`; token estimates default
from `DEFAULT_TOKEN_ESTIMATES` then its `"default"` entry;
`task_calls = (max_calls + 1) * val_size`;
`reflection_calls = max_calls // 2` (Python floor division); reflection
calls are costed at `3×` input tokens and `2×` output tokens. -/
def calculate_optimization_cost (case_name task_model reflection_model : String)
    (max_calls : ℤ := FALLBACK_MAX_CALLS) (val_size : Option ℤ := none)
    (token_estimates : Option TokenEstimate := none)
    (pricing : Option PricingTable := none) : CostBreakdown :=
  let val_size := val_size.getD ((DEFAULT_VAL_SIZES.lookup case_name).getD FALLBACK_VAL_SIZE)
  let tokens := token_estimates.getD ((DEFAULT_TOKEN_ESTIMATES.lookup case_name).getD
    ((DEFAULT_TOKEN_ESTIMATES.lookup "default").getD ⟨500, 150⟩))
  let task_pricing := get_model_pricing task_model pricing
  let reflection_pricing := get_model_pricing reflection_model pricing
  let task_calls := (max_calls + 1) * val_size
  let reflection_calls := Int.fdiv max_calls 2
  let task_cost := (task_calls : ℚ) * task_pricing.cost_per_call tokens.input tokens.output
  let reflection_tokens_in := tokens.input * 3
  let reflection_tokens_out := tokens.output * 2
  let reflection_cost :=
    (reflection_calls : ℚ) * reflection_pricing.cost_per_call reflection_tokens_in reflection_tokens_out
  ⟨task_calls, task_cost, reflection_calls, reflection_cost,
    task_cost + reflection_cost, task_pricing, reflection_pricing⟩

/-! ## `shared/analysis/leaderboard.py` and `shared/analysis/base.py` -/

/-- `detect_scale`: any score above `1.0` marks the whole set as
percentage scale. -/
def detect_scale (scores : List ℚ) : ℚ :=
  if scores.any (fun s => decide (s > 1)) then 100 else 1

/-- One historical experiment row as `detect_anomalies` reads it: the
relevant CSV columns, still in their string form. -/
structure ExperimentRow where
  run_id : String
  caso : String
  source : String
  baseline_score : String
  optimizado_score : String
  robustez_score : String
deriving DecidableEq

/-- One anomaly record produced by `detect_anomalies`. -/
structure AnomalyRecord where
  run_id : String
  case : String
  source : String
  base : String
  opt : String
  rob : String
  reason : String
deriving DecidableEq

/-- The per-row body of `detect_anomalies`: parse the three scores,
detect the row's scale, collect the applicable reasons
(`"Opt < Base"`, `"Rob < Base"`, `"Extremo (...)"` for a robustness of
exactly `0.0`, `1.0` or `100.0`), and emit a record with the reasons
joined by `", "` when any applies. -/
def anomalyOf (row : ExperimentRow) : Option AnomalyRecord :=
  let base := parse_float row.baseline_score
  let opt := parse_float row.optimizado_score
  let rob := parse_float row.robustez_score
  let scale := detect_scale [base, opt, rob]
  let to_pct := if scale > 0 then 100 / scale else 1
  let reasons :=
    (if opt < base then ["Opt < Base"] else []) ++
    (if rob < base then ["Rob < Base"] else []) ++
    (if rob = 0 ∨ rob = 1 ∨ rob = 100 then
      ["Extremo (" ++ format_float (rob * to_pct) ++ "%)"] else [])
  if reasons.isEmpty then none
  else
    some ⟨row.run_id, row.caso, row.source, format_float (base * to_pct),
      format_float (opt * to_pct), format_float (rob * to_pct), joinStrings ", " reasons⟩

/-- `detect_anomalies`: scan the rows individually. -/
def detect_anomalies (rows : List ExperimentRow) : List AnomalyRecord :=
  rows.filterMap anomalyOf

/-! ## Helper lemmas -/

theorem collectResults_eq_nil {Ex R : Type} (p : ℕ → Ex → Option R) :
    ∀ (l : List Ex) (i : ℕ), (∀ k, k < l.length → ∀ e, p (i + k) e = none) →
    collectResults p i l = [] := by
  intro l
  induction l with
  | nil => intro i _; rfl
  | cons e rest ih =>
    intro i h
    have h0 : p i e = none := by
      have := h 0 (Nat.succ_pos _) e
      simpa using this
    simp only [collectResults, h0]
    exact ih (i + 1) (fun k hk e' => by
      have := h (k + 1) (by simp only [List.length_cons]; omega) e'
      rwa [show i + (k + 1) = i + 1 + k by omega] at this)

theorem collectResults_length {Ex R : Type} (p : ℕ → Ex → Option R) (okAt : ℕ → Bool)
    (h : ∀ j e, (p j e).isSome = okAt j) :
    ∀ (l : List Ex) (i : ℕ),
      (collectResults p i l).length
        = ((List.range l.length).filter (fun k => okAt (i + k))).length := by
  intro l
  induction l with
  | nil => intro i; rfl
  | cons e rest ih =>
    intro i
    have hrange : List.range (rest.length + 1) = 0 :: List.map Nat.succ (List.range rest.length) :=
      List.range_succ_eq_map rest.length
    have hfm : (List.map Nat.succ (List.range rest.length)).filter (fun k => okAt (i + k))
        = List.map Nat.succ ((List.range rest.length).filter (fun k => okAt (i + Nat.succ k))) :=
      List.filter_map Nat.succ (List.range rest.length)
    have hpred : (fun k => okAt (i + Nat.succ k)) = (fun k => okAt (i + 1 + k)) :=
      funext fun k => congrArg okAt (by omega)
    have hi := h i e
    simp only [List.length_cons, hrange, List.filter_cons]
    cases hc : p i e with
    | some r =>
      rw [hc] at hi
      simp only [Option.isSome_some] at hi
      simp only [collectResults, hc, List.length_cons, ih (i + 1), ← hi, Nat.add_zero,
        hfm, hpred, List.length_map]
      simp
    | none =>
      rw [hc] at hi
      simp only [Option.isSome_none] at hi
      simp only [collectResults, hc, ih (i + 1), ← hi, Nat.add_zero,
        hfm, hpred, List.length_map]
      simp

theorem classifierProcess_isSome (c : Except String String) (sys : String)
    (ex : List (String × String)) :
    (classifierProcessExample c sys ex).isSome = exceptOk c := by
  cases c <;> rfl

theorem extractorProcess_isSome (pf : String → List (String × String))
    (c : Except String String) (sys : String) (ex : ExtractorExample) :
    (extractorProcessExample pf c sys ex).isSome = exceptOk c := by
  cases c <;> rfl

theorem sqlProcess_isSome (c : Except String String) (ex : SQLExample) :
    (sqlProcessExample c ex).isSome = exceptOk c := by
  cases c <;> rfl

theorem retryAux_succ (transport : ℕ → Except String String) (maxRetries fuel attempt sleeps : ℕ) :
    retryAux transport maxRetries (fuel + 1) attempt sleeps
      = match transport attempt with
        | .ok s => ⟨.returned (some s), attempt + 1, sleeps⟩
        | .error e =>
          if isModerationError e then
            if attempt < maxRetries - 1 then
              retryAux transport maxRetries fuel (attempt + 1) (sleeps + 1)
            else ⟨.returned none, attempt + 1, sleeps⟩
          else ⟨.raised e, attempt + 1, sleeps⟩ :=
  rfl

theorem retryAux_all_moderation (transport : ℕ → Except String String) (maxRetries : ℕ) :
    ∀ (fuel attempt sleeps : ℕ), fuel + attempt = maxRetries → 1 ≤ fuel →
    (∀ i, attempt ≤ i → i < maxRetries → ∃ e, transport i = .error e ∧ isModerationError e = true) →
    retryAux transport maxRetries fuel attempt sleeps
      = ⟨.returned none, maxRetries, sleeps + (fuel - 1)⟩ := by
  intro fuel
  induction fuel with
  | zero => intro attempt sleeps _ h1 _; exact absurd h1 (by omega)
  | succ f ih =>
    intro attempt sleeps hsum _ hmod
    obtain ⟨e, he, hmode⟩ := hmod attempt le_rfl (by omega)
    rw [retryAux_succ, he]
    dsimp only
    rw [hmode]
    rw [if_pos rfl]
    cases f with
    | zero =>
      rw [if_neg (by omega)]
      have h1 : attempt + 1 = maxRetries := by omega
      rw [h1]
      have h2 : sleeps + (0 + 1 - 1) = sleeps := by omega
      rw [h2]
    | succ f' =>
      rw [if_pos (by omega)]
      rw [ih (attempt + 1) (sleeps + 1) (by omega) (by omega)
        (fun i hi1 hi2 => hmod i (by omega) hi2)]
      have h1 : sleeps + 1 + (f' + 1 - 1) = sleeps + (f' + 1 + 1 - 1) := by omega
      rw [h1]

theorem retryAux_returned_none (transport : ℕ → Except String String) (maxRetries : ℕ) :
    ∀ (fuel attempt sleeps : ℕ), fuel + attempt = maxRetries →
    (retryAux transport maxRetries fuel attempt sleeps).outcome = .returned none →
    ∀ i, attempt ≤ i → i < maxRetries →
      ∃ e, transport i = .error e ∧ isModerationError e = true := by
  intro fuel
  induction fuel with
  | zero => intro attempt sleeps hsum _ i hi1 hi2; exact absurd hi2 (by omega)
  | succ f ih =>
    intro attempt sleeps hsum hout i hi1 hi2
    rw [retryAux_succ] at hout
    cases htr : transport attempt with
    | ok s =>
      rw [htr] at hout
      exact absurd hout (by simp)
    | error e =>
      rw [htr] at hout
      dsimp only at hout
      cases hmode : isModerationError e with
      | false =>
        rw [hmode] at hout
        rw [if_neg (by simp)] at hout
        exact absurd hout (by simp)
      | true =>
        rw [hmode, if_pos rfl] at hout
        by_cases hlt : attempt < maxRetries - 1
        · rw [if_pos hlt] at hout
          rcases Nat.eq_or_lt_of_le hi1 with heq | hgt
          · subst heq
            exact ⟨e, htr, hmode⟩
          · exact ih (attempt + 1) (sleeps + 1) (by omega) hout i (by omega) hi2
        · have hieq : i = attempt := by omega
          subst hieq
          exact ⟨e, htr, hmode⟩

theorem retryAux_raises (transport : ℕ → Except String String) (maxRetries : ℕ) :
    ∀ (fuel attempt sleeps i : ℕ) (e : String), fuel + attempt = maxRetries →
    attempt ≤ i → i < maxRetries →
    (∀ j, attempt ≤ j → j < i → ∃ e', transport j = .error e' ∧ isModerationError e' = true) →
    transport i = .error e → isModerationError e = false →
    retryAux transport maxRetries fuel attempt sleeps
      = ⟨.raised e, i + 1, sleeps + (i - attempt)⟩ := by
  intro fuel
  induction fuel with
  | zero => intro attempt sleeps i e hsum hi1 hi2 _ _ _; exact absurd hi2 (by omega)
  | succ f ih =>
    intro attempt sleeps i e hsum hi1 hi2 hprev htr hmode
    rcases Nat.eq_or_lt_of_le hi1 with heq | hgt
    · subst heq
      rw [retryAux_succ, htr]
      dsimp only
      rw [hmode]
      rw [if_neg (by simp)]
      have h2 : sleeps + (attempt - attempt) = sleeps := by omega
      rw [h2]
    · obtain ⟨e', he', hmode'⟩ := hprev attempt le_rfl hgt
      rw [retryAux_succ, he']
      dsimp only
      rw [hmode', if_pos rfl]
      rw [if_pos (by omega)]
      rw [ih (attempt + 1) (sleeps + 1) i e (by omega) (by omega) hi2
        (fun j hj1 hj2 => hprev j (by omega) hj2) htr hmode]
      have h1 : sleeps + 1 + (i - (attempt + 1)) = sleeps + (i - attempt) := by omega
      rw [h1]

/-! ## Theorems for the claims -/

/-- **C2**: for any transport and `max_retries ≥ 1`,
`_call_llm_with_retry` returns `None` without raising exactly when all
of the `max_retries` attempts fail with a moderation-flavoured
exception (in which case `max_retries` attempts are made with
`max_retries - 1` fixed 1-second sleeps between them); an exception
without a moderation marker is re-raised from the attempt on which it
occurs, with no further attempt and no additional sleep. -/
theorem claim2_retry_contract (transport : ℕ → Except String String) (maxRetries : ℕ)
    (hmr : 1 ≤ maxRetries) :
    ((call_llm_with_retry transport maxRetries).outcome = .returned none ↔
      ∀ i, i < maxRetries → ∃ e, transport i = .error e ∧ isModerationError e = true)
    ∧ ((∀ i, i < maxRetries → ∃ e, transport i = .error e ∧ isModerationError e = true) →
      call_llm_with_retry transport maxRetries
        = ⟨.returned none, maxRetries, maxRetries - 1⟩)
    ∧ (∀ i e, i < maxRetries →
      (∀ j, j < i → ∃ e', transport j = .error e' ∧ isModerationError e' = true) →
      transport i = .error e → isModerationError e = false →
      call_llm_with_retry transport maxRetries = ⟨.raised e, i + 1, i⟩) := by
  have hall : (∀ i, i < maxRetries → ∃ e, transport i = .error e ∧ isModerationError e = true) →
      call_llm_with_retry transport maxRetries
        = ⟨.returned none, maxRetries, maxRetries - 1⟩ := by
    intro hmod
    rw [call_llm_with_retry,
      retryAux_all_moderation transport maxRetries maxRetries 0 0 (by omega) hmr
        (fun i _ hi2 => hmod i hi2)]
    rw [Nat.zero_add]
  refine ⟨⟨fun hout => ?_, fun hmod => by rw [hall hmod]⟩, hall, ?_⟩
  · exact fun i hi =>
      retryAux_returned_none transport maxRetries maxRetries 0 0 (by omega) hout i (Nat.zero_le i) hi
  · intro i e hi hprev htr hmode
    rw [call_llm_with_retry,
      retryAux_raises transport maxRetries maxRetries 0 0 i e (by omega) (Nat.zero_le i) hi
        (fun j _ hj2 => hprev j hj2) htr hmode]
    rw [Nat.zero_add, Nat.sub_zero]

/-- Witness for **C2**: `max_retries = 2` with a transport that always
raises a content-filter-flavoured exception makes exactly 2 attempts,
sleeps once, and returns `None`. -/
theorem claim2_witness :
    1 ≤ 2
    ∧ call_llm_with_retry (fun _ => .error "content_filter triggered") 2
        = ⟨.returned none, 2, 1⟩ := by
  have T := claim2_retry_contract (fun _ => .error "content_filter triggered") 2 (by decide)
  exact ⟨by decide, T.2.1 (fun _ _ => ⟨"content_filter triggered", rfl, by decide⟩)⟩

/-- **C1**: for every `eval_fields` of length `N ≥ 1` and every
example/prediction pair in which exactly `k` of the `N` fields match
under the selected match mode, the metric from `create_dynamic_metric`
scores `1.0` when `k = N`; `k/N` when `k < N` and `normalize` is true;
and `0.0` when `k < N` and `normalize` is false (the Python `True` /
`False` returns read numerically via `MetricValue.toScore`). -/
theorem claim1_dynamic_metric_partial_credit
    (eval_fields : List String) (normalize : Bool) (mode : MatchMode)
    (sim : String → String → ℚ) (threshold : ℚ) (ex pred : String → String) (k : ℕ)
    (_hN : 1 ≤ eval_fields.length)
    (hk : k = (eval_fields.filter (fieldMatch mode sim threshold ex pred)).length) :
    (k = eval_fields.length →
      (dynamic_metric eval_fields normalize mode sim threshold ex pred).toScore = 1)
    ∧ (k < eval_fields.length → normalize = true →
      (dynamic_metric eval_fields normalize mode sim threshold ex pred).toScore
        = (k : ℚ) / (eval_fields.length : ℚ))
    ∧ (k < eval_fields.length → normalize = false →
      (dynamic_metric eval_fields normalize mode sim threshold ex pred).toScore = 0) := by
  subst hk
  simp only [dynamic_metric]
  refine ⟨fun h => ?_, fun hlt hnorm => ?_, fun hlt hnorm => ?_⟩
  · rw [if_pos h]; rfl
  · rw [if_neg (Nat.ne_of_lt hlt), if_pos ⟨hnorm, Nat.lt_of_le_of_lt (Nat.zero_le _) hlt⟩]
    rfl
  · rw [if_neg (Nat.ne_of_lt hlt), if_neg (fun hc => by simp [hnorm] at hc)]
    rfl

/-- Witness for **C1** at a concrete input: one field, exact mode, the
example value `" X "` and prediction value `"x"` match after
strip/lower, so `k = N = 1` and the score is `1.0`. -/
theorem claim1_witness :
    (1 ≤ (["a"] : List String).length
      ∧ (1 : ℕ) = ((["a"] : List String).filter
          (fieldMatch .exact (fun _ _ => 0) 0 (fun _ => " X ") (fun _ => "x"))).length)
    ∧ (dynamic_metric ["a"] true .exact (fun _ _ => 0) 0
        (fun _ => " X ") (fun _ => "x")).toScore = 1 :=
  ⟨⟨by decide, by decide⟩,
    (claim1_dynamic_metric_partial_credit ["a"] true .exact (fun _ _ => 0) 0
      (fun _ => " X ") (fun _ => "x") 1 (by decide) (by decide)).1 (by decide)⟩

/-- **C6**: `calculate_optimization_cost` with an explicit `val_size`
returns `task_calls = (max_calls + 1) * val_size` and
`reflection_calls = max_calls // 2`, costs reflection calls at `3×` the
input-token estimate and `2×` the output-token estimate, and is
deterministic (equal inputs give equal outputs); in particular
`max_calls = 30`, `val_size = 10` yields `task_calls = 310` and
`reflection_calls = 15`. -/
theorem claim6_optimization_cost_formula :
    (∀ (case_name task_model reflection_model : String) (max_calls val_size : ℤ)
      (te : Option TokenEstimate) (pr : Option PricingTable),
      let tokens := te.getD ((DEFAULT_TOKEN_ESTIMATES.lookup case_name).getD
        ((DEFAULT_TOKEN_ESTIMATES.lookup "default").getD ⟨500, 150⟩))
      let r := calculate_optimization_cost case_name task_model reflection_model
        max_calls (some val_size) te pr
      r.task_calls = (max_calls + 1) * val_size
      ∧ r.reflection_calls = Int.fdiv max_calls 2
      ∧ r.reflection_cost = ((Int.fdiv max_calls 2 : ℤ) : ℚ) *
          r.reflection_pricing.cost_per_call (tokens.input * 3) (tokens.output * 2))
    ∧ (∀ (c₁ c₂ t₁ t₂ r₁ r₂ : String) (m₁ m₂ : ℤ) (v₁ v₂ : Option ℤ)
        (e₁ e₂ : Option TokenEstimate) (p₁ p₂ : Option PricingTable),
        c₁ = c₂ → t₁ = t₂ → r₁ = r₂ → m₁ = m₂ → v₁ = v₂ → e₁ = e₂ → p₁ = p₂ →
        calculate_optimization_cost c₁ t₁ r₁ m₁ v₁ e₁ p₁
          = calculate_optimization_cost c₂ t₂ r₂ m₂ v₂ e₂ p₂)
    ∧ (calculate_optimization_cost "X" "gpt-4o-mini" "gpt-4o" 30 (some 10) none none).task_calls
        = 310
    ∧ (calculate_optimization_cost "X" "gpt-4o-mini" "gpt-4o" 30
        (some 10) none none).reflection_calls = 15 := by
  refine ⟨fun _ _ _ _ _ _ _ => ⟨rfl, rfl, rfl⟩, ?_, by decide, by decide⟩
  intro c₁ c₂ t₁ t₂ r₁ r₂ m₁ m₂ v₁ v₂ e₁ e₂ p₁ p₂ hc ht hr hm hv he hp
  subst hc; subst ht; subst hr; subst hm; subst hv; subst he; subst hp; rfl

/-- Witness for **C6**: the determinism conjunct applied at duplicated
concrete arguments. -/
theorem claim6_witness :
    calculate_optimization_cost "X" "gpt-4o-mini" "gpt-4o" 30 (some 10) none none
      = calculate_optimization_cost "X" "gpt-4o-mini" "gpt-4o" 30 (some 10) none none :=
  claim6_optimization_cost_formula.2.1 "X" "X" "gpt-4o-mini" "gpt-4o-mini" "gpt-4o" "gpt-4o"
    30 30 (some 10) (some 10) none none none none rfl rfl rfl rfl rfl rfl rfl

/-- **C7 counterexample**: the claim says `get_model_pricing` strips the
provider prefix — the part before `/` — before the lookup.  On
`"openai/gpt-4o"` the code removes only the literal substring
`"azure/"`, so the key stays `"openai/gpt-4o"`, the lookup misses, and
the fallback (GPT-4o-mini) pricing is returned; stripping the part
before `/` as the claim describes would find the GPT-4o entry instead. -/
theorem claim7_counterexample :
    (get_model_pricing "openai/gpt-4o" none).name = "GPT-4o-mini"
    ∧ (get_model_pricing "openai/gpt-4o" none).input_price = 15/100
    ∧ (get_model_pricing_spec "openai/gpt-4o" none).name = "GPT-4o"
    ∧ (get_model_pricing_spec "openai/gpt-4o" none).input_price = 250/100
    ∧ get_model_pricing "openai/gpt-4o" none ≠ get_model_pricing_spec "openai/gpt-4o" none := by
  refine ⟨rfl, rfl, rfl, rfl, fun h => ?_⟩
  have hn : (get_model_pricing "openai/gpt-4o" none).name
      = (get_model_pricing_spec "openai/gpt-4o" none).name := by rw [h]
  rw [show (get_model_pricing "openai/gpt-4o" none).name = "GPT-4o-mini" from rfl,
    show (get_model_pricing_spec "openai/gpt-4o" none).name = "GPT-4o" from rfl] at hn
  exact absurd hn (by decide)

/-- **C7 amended**: `get_model_pricing` never raises (it is total): it
lowercases the model name and removes the literal substring `"azure/"`
(other provider prefixes are not stripped), looks the resulting key up
in the pricing table, and returns the `gpt-4o-mini` entry — the
cheapest entry of the default table — for any unrecognized key. -/
theorem claim7_amended_pricing_fallback (model_name : String) :
    (∀ p, DEFAULT_PRICING.lookup (pyReplace (pyLower model_name) "azure/" "") = some p →
      get_model_pricing model_name none = p)
    ∧ (DEFAULT_PRICING.lookup (pyReplace (pyLower model_name) "azure/" "") = none →
      get_model_pricing model_name none = gpt4oMiniPricing)
    ∧ (∀ e ∈ DEFAULT_PRICING, gpt4oMiniPricing.input_price ≤ e.2.input_price
        ∧ gpt4oMiniPricing.output_price ≤ e.2.output_price) := by
  refine ⟨fun p hp => ?_, fun hnone => ?_, fun e he => ?_⟩
  · simp only [get_model_pricing, hp, Option.getD_some]
  · simp only [get_model_pricing, hnone, Option.getD_none]
    rfl
  · simp only [DEFAULT_PRICING, List.mem_cons, List.not_mem_nil, or_false] at he
    rcases he with h | h | h <;> subst h <;>
      exact ⟨by norm_num [gpt4oMiniPricing], by norm_num [gpt4oMiniPricing]⟩

/-- Witness for **C7 amended**: `"AZURE/GPT-4o"` lowercases to
`"azure/gpt-4o"`, the `"azure/"` substring is removed, and the
`"gpt-4o"` entry is found. -/
theorem claim7_witness :
    (DEFAULT_PRICING.lookup (pyReplace (pyLower "AZURE/GPT-4o") "azure/" "")
      = some ⟨"GPT-4o", 250/100, 1000/100⟩)
    ∧ get_model_pricing "AZURE/GPT-4o" none = ⟨"GPT-4o", 250/100, 1000/100⟩ :=
  ⟨rfl, (claim7_amended_pricing_fallback "AZURE/GPT-4o").1 ⟨"GPT-4o", 250/100, 1000/100⟩ rfl⟩

/-- **C3**: for the classifier, extractor and SQL adapters, a non-empty
batch in which the task-model call raises on every example makes
`evaluate` raise the hard all-examples-failed error instead of
returning an empty successful `EvaluationBatch`; and in general every
example whose call raises is dropped — it contributes no output and no
score, so the number of collected results equals the number of
successful calls.  (The accompanying warning print is I/O and not
modelled.) -/
theorem claim3_all_failed_hard_stop
    (callC callE callS : ℕ → Except String String)
    (parseFields : String → List (String × String))
    (batchC : List (List (String × String))) (batchE : List ExtractorExample)
    (batchS : List SQLExample)
    (candC candE candS : List (String × String)) (capC capE capS : Bool)
    (_hCne : batchC ≠ []) (hCfail : ∀ i, i < batchC.length → exceptOk (callC i) = false)
    (_hEne : batchE ≠ []) (hEfail : ∀ i, i < batchE.length → exceptOk (callE i) = false)
    (_hSne : batchS ≠ []) (hSfail : ∀ i, i < batchS.length → exceptOk (callS i) = false) :
    (classifierEvaluate callC batchC candC capC = .error (allFailedMsg batchC.length))
    ∧ (extractorEvaluate parseFields callE batchE candE capE
        = .error (allFailedMsg batchE.length))
    ∧ (sqlEvaluate callS batchS candS capS = .error (allFailedMsg batchS.length))
    ∧ (∀ (call : ℕ → Except String String) (sys : String)
        (batch : List (List (String × String))),
        (collectResults (fun i ex => classifierProcessExample (call i) sys ex) 0 batch).length
          = ((List.range batch.length).filter (fun k => exceptOk (call k))).length)
    ∧ (∀ (call : ℕ → Except String String) (pf : String → List (String × String))
        (sys : String) (batch : List ExtractorExample),
        (collectResults (fun i ex => extractorProcessExample pf (call i) sys ex) 0 batch).length
          = ((List.range batch.length).filter (fun k => exceptOk (call k))).length)
    ∧ (∀ (call : ℕ → Except String String) (batch : List SQLExample),
        (collectResults (fun i ex => sqlProcessExample (call i) ex) 0 batch).length
          = ((List.range batch.length).filter (fun k => exceptOk (call k))).length) := by
  have dropNone : ∀ {Ex R : Type} (p : ℕ → Ex → Option R) (call : ℕ → Except String String)
      (hok : ∀ j e, (p j e).isSome = exceptOk (call j)) (l : List Ex)
      (hfail : ∀ i, i < l.length → exceptOk (call i) = false),
      collectResults p 0 l = [] := by
    intro Ex R p call hok l hfail
    apply collectResults_eq_nil
    intro k hk e
    cases hoe : p (0 + k) e with
    | none => rfl
    | some r =>
      have hs := hok (0 + k) e
      rw [hoe, Nat.zero_add, hfail k hk] at hs
      exact absurd hs (by simp)
  have countLen : ∀ {Ex R : Type} (p : ℕ → Ex → Option R) (call : ℕ → Except String String)
      (hok : ∀ j e, (p j e).isSome = exceptOk (call j)) (l : List Ex),
      (collectResults p 0 l).length
        = ((List.range l.length).filter (fun k => exceptOk (call k))).length := by
    intro Ex R p call hok l
    rw [collectResults_length p (fun k => exceptOk (call k)) hok l 0]
    have : (fun k => exceptOk (call (0 + k))) = (fun k => exceptOk (call k)) :=
      funext fun k => by rw [Nat.zero_add]
    rw [this]
  refine ⟨?_, ?_, ?_, ?_, ?_, ?_⟩
  · have hnil := dropNone
      (fun i ex => classifierProcessExample (callC i) ((candC.lookup "system_prompt").getD "") ex)
      callC (fun j e => classifierProcess_isSome (callC j) _ e) batchC hCfail
    simp only [classifierEvaluate, hnil, List.map_nil, List.isEmpty_nil, if_true]
  · have hnil := dropNone
      (fun i ex =>
        extractorProcessExample parseFields (callE i) ((candE.lookup "system_prompt").getD "") ex)
      callE (fun j e => extractorProcess_isSome parseFields (callE j) _ e) batchE hEfail
    simp only [extractorEvaluate, hnil, List.map_nil, List.isEmpty_nil, if_true]
  · have hnil := dropNone (fun i ex => sqlProcessExample (callS i) ex)
      callS (fun j e => sqlProcess_isSome (callS j) e) batchS hSfail
    simp only [sqlEvaluate, hnil, List.map_nil, List.isEmpty_nil, if_true]
  · intro call sys batch
    exact countLen (fun i ex => classifierProcessExample (call i) sys ex) call
      (fun j e => classifierProcess_isSome (call j) sys e) batch
  · intro call pf sys batch
    exact countLen (fun i ex => extractorProcessExample pf (call i) sys ex) call
      (fun j e => extractorProcess_isSome pf (call j) sys e) batch
  · intro call batch
    exact countLen (fun i ex => sqlProcessExample (call i) ex) call
      (fun j e => sqlProcess_isSome (call j) e) batch

/-- Witness for **C3**: singleton batches whose only call raises
`"boom"` make all three adapters return the hard error. -/
theorem claim3_witness :
    classifierEvaluate (fun _ => .error "boom") [[("text", "t"), ("label", "x")]] [] false
      = .error (allFailedMsg 1)
    ∧ extractorEvaluate (fun _ => []) (fun _ => .error "boom") [⟨"t", []⟩] [] false
      = .error (allFailedMsg 1)
    ∧ sqlEvaluate (fun _ => .error "boom") [⟨"q", "s", "e"⟩] [] false
      = .error (allFailedMsg 1) := by
  have T := claim3_all_failed_hard_stop (fun _ => .error "boom") (fun _ => .error "boom")
    (fun _ => .error "boom") (fun _ => []) [[("text", "t"), ("label", "x")]] [⟨"t", []⟩]
    [⟨"q", "s", "e"⟩] [] [] [] false false false
    (by decide) (fun _ _ => rfl) (by decide) (fun _ _ => rfl) (by decide) (fun _ _ => rfl)
  exact ⟨T.1, T.2.1, T.2.2.1⟩

theorem ragEvaluateGo_length (gen judge : ℕ → ℕ → Except String String) (sys : String) :
    ∀ (l : List RAGExample) (i : ℕ), (ragEvaluateGo gen judge sys i l).length = l.length := by
  intro l
  induction l with
  | nil => intro i; rfl
  | cons e rest ih =>
    intro i
    simp only [ragEvaluateGo, List.length_cons, ih (i + 1)]

theorem ragEvaluateGo_get? (gen judge : ℕ → ℕ → Except String String) (sys : String) :
    ∀ (l : List RAGExample) (i j : ℕ) (hj : j < l.length),
      (ragEvaluateGo gen judge sys i l).get? j
        = some (ragProcessExample (gen (i + j)) (judge (i + j)) sys (l.get ⟨j, hj⟩)) := by
  intro l
  induction l with
  | nil => intro i j hj; exact absurd hj (by simp)
  | cons e rest ih =>
    intro i j hj
    cases j with
    | zero => simp [ragEvaluateGo]
    | succ j =>
      have hj' : j < rest.length := by simpa using hj
      simp only [ragEvaluateGo, List.get?_cons_succ, ih (i + 1) j hj',
        show i + 1 + j = i + (j + 1) by omega]
      rfl

/-- **C4**: the RAG adapter's `evaluate` appends exactly one score per
input example — score `0.0` with the sentinel error output when the
generation is moderation-blocked (the retry wrapper returned `None`) or
when the example's processing raises — so `scores` and `outputs` both
have the batch's length.  `ragEvaluate` is a total function into
`EvaluationBatch` (it has no error channel), so this adapter can never
raise the all-examples-failed hard error the other adapters use. -/
theorem claim4_rag_always_scores (gen judge : ℕ → ℕ → Except String String)
    (batch : List RAGExample) (candidate : List (String × String)) (capture_traces : Bool) :
    (ragEvaluate gen judge batch candidate capture_traces).scores.length = batch.length
    ∧ (ragEvaluate gen judge batch candidate capture_traces).outputs.length = batch.length
    ∧ ∀ i, i < batch.length →
        ((call_llm_with_retry (gen i) 2).outcome = .returned none →
          (ragEvaluate gen judge batch candidate capture_traces).scores.get? i = some 0
          ∧ (ragEvaluate gen judge batch candidate capture_traces).outputs.get? i
            = some (.err "Content filter blocked request"))
        ∧ (∀ e, (call_llm_with_retry (gen i) 2).outcome = .raised e →
          (ragEvaluate gen judge batch candidate capture_traces).scores.get? i = some 0
          ∧ (ragEvaluate gen judge batch candidate capture_traces).outputs.get? i
            = some (.err e)) := by
  refine ⟨?_, ?_, ?_⟩
  · simp [ragEvaluate, ragEvaluateGo_length]
  · simp [ragEvaluate, ragEvaluateGo_length]
  · intro i hi
    have hget := ragEvaluateGo_get? gen judge ((candidate.lookup "system_prompt").getD "")
      batch 0 i hi
    rw [Nat.zero_add] at hget
    constructor
    · intro hblocked
      constructor
      · simp only [ragEvaluate, List.get?_map, hget, Option.map_some']
        simp [ragProcessExample, hblocked]
      · simp only [ragEvaluate, List.get?_map, hget, Option.map_some']
        simp [ragProcessExample, hblocked]
    · intro e hraised
      constructor
      · simp only [ragEvaluate, List.get?_map, hget, Option.map_some']
        simp [ragProcessExample, hraised]
      · simp only [ragEvaluate, List.get?_map, hget, Option.map_some']
        simp [ragProcessExample, hraised]

/-- Witness for **C4**: a generation transport that always raises a
content-filter exception is moderation-blocked after the 2 retry
attempts, and the single example gets score `0.0` with the sentinel
output. -/
theorem claim4_witness :
    ((call_llm_with_retry (fun _ => .error "content_filter") 2).outcome = .returned none)
    ∧ (ragEvaluate (fun _ _ => .error "content_filter") (fun _ _ => .ok "")
        [⟨"q", "c", "a"⟩] [] false).scores.get? 0 = some 0
    ∧ (ragEvaluate (fun _ _ => .error "content_filter") (fun _ _ => .ok "")
        [⟨"q", "c", "a"⟩] [] false).outputs.get? 0
        = some (.err "Content filter blocked request") := by
  have T := claim4_rag_always_scores (fun _ _ => .error "content_filter") (fun _ _ => .ok "")
    [⟨"q", "c", "a"⟩] [] false
  have hb := (T.2.2 0 (by decide)).1 (by decide)
  exact ⟨by decide, hb.1, hb.2⟩

/-- **C5**: for all four adapters, whenever `evaluate` returns without
raising, the returned batch satisfies `len(scores) == len(outputs)`,
and when trace capture was requested the trajectories are non-`None`
with that same length. -/
theorem claim5_batch_invariant :
    (∀ (call : ℕ → Except String String) (batch : List (List (String × String)))
      (candidate : List (String × String)) (capture_traces : Bool)
      (b : EvaluationBatch ClassifierOutput ClassifierTraj),
      classifierEvaluate call batch candidate capture_traces = .ok b →
      b.scores.length = b.outputs.length
      ∧ (capture_traces = true →
        b.trajectories.isSome = true ∧ (b.trajectories.getD []).length = b.outputs.length))
    ∧ (∀ (parseFields : String → List (String × String)) (call : ℕ → Except String String)
      (batch : List ExtractorExample) (candidate : List (String × String))
      (capture_traces : Bool) (b : EvaluationBatch ExtractorOutput ExtractorTraj),
      extractorEvaluate parseFields call batch candidate capture_traces = .ok b →
      b.scores.length = b.outputs.length
      ∧ (capture_traces = true →
        b.trajectories.isSome = true ∧ (b.trajectories.getD []).length = b.outputs.length))
    ∧ (∀ (call : ℕ → Except String String) (batch : List SQLExample)
      (candidate : List (String × String)) (capture_traces : Bool)
      (b : EvaluationBatch SQLOutput SQLTraj),
      sqlEvaluate call batch candidate capture_traces = .ok b →
      b.scores.length = b.outputs.length
      ∧ (capture_traces = true →
        b.trajectories.isSome = true ∧ (b.trajectories.getD []).length = b.outputs.length))
    ∧ (∀ (gen judge : ℕ → ℕ → Except String String) (batch : List RAGExample)
      (candidate : List (String × String)) (capture_traces : Bool),
      (ragEvaluate gen judge batch candidate capture_traces).scores.length
        = (ragEvaluate gen judge batch candidate capture_traces).outputs.length
      ∧ (capture_traces = true →
        (ragEvaluate gen judge batch candidate capture_traces).trajectories.isSome = true
        ∧ ((ragEvaluate gen judge batch candidate capture_traces).trajectories.getD []).length
          = (ragEvaluate gen judge batch candidate capture_traces).outputs.length)) := by
  refine ⟨?_, ?_, ?_, ?_⟩
  · intro call batch candidate capture_traces b h
    simp only [classifierEvaluate] at h
    split at h
    · exact absurd h (by simp)
    · rw [Except.ok.injEq] at h
      subst h
      refine ⟨by simp, fun hcap => ?_⟩
      subst hcap
      simp
  · intro parseFields call batch candidate capture_traces b h
    simp only [extractorEvaluate] at h
    split at h
    · exact absurd h (by simp)
    · rw [Except.ok.injEq] at h
      subst h
      refine ⟨by simp, fun hcap => ?_⟩
      subst hcap
      simp
  · intro call batch candidate capture_traces b h
    simp only [sqlEvaluate] at h
    split at h
    · exact absurd h (by simp)
    · rw [Except.ok.injEq] at h
      subst h
      refine ⟨by simp, fun hcap => ?_⟩
      subst hcap
      simp
  · intro gen judge batch candidate capture_traces
    refine ⟨by simp [ragEvaluate], fun hcap => ?_⟩
    subst hcap
    simp [ragEvaluate]

/-- Witness for **C5**: one successfully evaluated singleton batch per
adapter, with trace capture on; the concrete result batches are spelled
out and the invariant is read off them. -/
theorem claim5_witness :
    (classifierEvaluate (fun _ => .ok "x") [[("text", "hola"), ("label", "x")]] [] true
        = .ok ⟨[⟨"x", "x", "hola"⟩], [1], some [⟨"hola", "x", "x", "", true⟩]⟩
      ∧ ([(1 : ℚ)]).length = ([(⟨"x", "x", "hola"⟩ : ClassifierOutput)]).length)
    ∧ (extractorEvaluate (fun _ => []) (fun _ => .ok "resp") [⟨"t", []⟩] [] true
        = .ok ⟨[⟨[], [], [], "t"⟩], [0], some [⟨"t", [], [], [], "", 0⟩]⟩
      ∧ ([(0 : ℚ)]).length = ([(⟨[], [], [], "t"⟩ : ExtractorOutput)]).length)
    ∧ (sqlEvaluate (fun _ => .ok "select 1") [⟨"q", "s", "select 1"⟩] [] true
        = .ok ⟨[⟨"select 1", "select 1", "q"⟩], [1],
            some [⟨"Esquema: s\nPregunta: q", "select 1", "select 1", true⟩]⟩
      ∧ ([(1 : ℚ)]).length = ([(⟨"select 1", "select 1", "q"⟩ : SQLOutput)]).length)
    ∧ ((ragEvaluate (fun _ _ => .error "content_filter") (fun _ _ => .ok "")
        [⟨"q", "c", "a"⟩] [] true).scores.length
        = (ragEvaluate (fun _ _ => .error "content_filter") (fun _ _ => .ok "")
          [⟨"q", "c", "a"⟩] [] true).outputs.length
      ∧ (ragEvaluate (fun _ _ => .error "content_filter") (fun _ _ => .ok "")
          [⟨"q", "c", "a"⟩] [] true).trajectories.isSome = true) := by
  have hC : classifierEvaluate (fun _ => .ok "x") [[("text", "hola"), ("label", "x")]] [] true
      = .ok ⟨[⟨"x", "x", "hola"⟩], [1], some [⟨"hola", "x", "x", "", true⟩]⟩ := rfl
  have hE : extractorEvaluate (fun _ => []) (fun _ => .ok "resp") [⟨"t", []⟩] [] true
      = .ok ⟨[⟨[], [], [], "t"⟩], [0], some [⟨"t", [], [], [], "", 0⟩]⟩ := rfl
  have hS : sqlEvaluate (fun _ => .ok "select 1") [⟨"q", "s", "select 1"⟩] [] true
      = .ok ⟨[⟨"select 1", "select 1", "q"⟩], [1],
          some [⟨"Esquema: s\nPregunta: q", "select 1", "select 1", true⟩]⟩ := rfl
  have TC := (claim5_batch_invariant.1 _ _ _ _ _ hC).1
  have TE := (claim5_batch_invariant.2.1 _ _ _ _ _ _ hE).1
  have TS := (claim5_batch_invariant.2.2.1 _ _ _ _ _ hS).1
  have TR := claim5_batch_invariant.2.2.2 (fun _ _ => .error "content_filter")
    (fun _ _ => .ok "") [⟨"q", "c", "a"⟩] [] true
  exact ⟨⟨hC, TC⟩, ⟨hE, TE⟩, ⟨hS, TS⟩, TR.1, (TR.2 rfl).1⟩

/-- **C10**: with an empty `eval_fields` list the dynamic metric returns
`True` (score `1.0`) for every example/prediction pair, regardless of
`normalize` and match mode — while the extractor adapter scores an
example with zero expected fields `0.0`. -/
theorem claim10_empty_eval_fields :
    (∀ (normalize : Bool) (mode : MatchMode) (sim : String → String → ℚ) (threshold : ℚ)
      (ex pred : String → String),
      dynamic_metric [] normalize mode sim threshold ex pred = .bool true
      ∧ (dynamic_metric [] normalize mode sim threshold ex pred).toScore = 1)
    ∧ (∀ extracted_fields : List (String × String), extractorScore [] extracted_fields = 0) :=
  ⟨fun _ _ _ _ _ _ => ⟨rfl, rfl⟩, fun _ => rfl⟩

theorem fmtFixed4_round (x : ℚ) (n : ℤ) (h : round (x * 10000) = n) :
    fmtFixed4 x = String.mk
      (if n < 0 then '-' :: (natChars (n.natAbs / 10000) ++ '.' :: frac4 (n.natAbs % 10000))
       else natChars (n.natAbs / 10000) ++ '.' :: frac4 (n.natAbs % 10000)) := by
  simp only [fmtFixed4, h]

/-- **C8**: `detect_anomalies` flags a row exactly when
`optimized < baseline`, or `robustness < baseline`, or the robustness
score is exactly `0.0`, `1.0` (100% of the 0–1 scale) or `100.0` (the
maximum of the percent scale); rows are scanned individually, and the
reasons that co-occur on one row are concatenated into a single reason
string — a concrete row with `optimized < baseline` and
`robustness == 0` yields one record whose reason contains both
`"Opt < Base"` and `"Extremo"`. -/
theorem claim8_anomaly_detection :
    (∀ row : ExperimentRow,
      (anomalyOf row).isSome = true ↔
        (parse_float row.optimizado_score < parse_float row.baseline_score
         ∨ parse_float row.robustez_score < parse_float row.baseline_score
         ∨ parse_float row.robustez_score = 0 ∨ parse_float row.robustez_score = 1
         ∨ parse_float row.robustez_score = 100))
    ∧ (∀ row : ExperimentRow, detect_anomalies [row] = (anomalyOf row).toList)
    ∧ (detect_anomalies [⟨"r1", "caso", "src", "0,5", "0,4", "0,0"⟩]
        = [⟨"r1", "caso", "src", "50,0000", "40,0000", "0,0000",
            "Opt < Base, Rob < Base, Extremo (0,0000%)"⟩]
      ∧ containsSub "Opt < Base, Rob < Base, Extremo (0,0000%)" "Opt < Base" = true
      ∧ containsSub "Opt < Base, Rob < Base, Extremo (0,0000%)" "Extremo" = true) := by
  refine ⟨?_, ?_, ?_, by decide, by decide⟩
  · intro row
    simp only [anomalyOf]
    by_cases h1 : parse_float row.optimizado_score < parse_float row.baseline_score <;>
      by_cases h2 : parse_float row.robustez_score < parse_float row.baseline_score <;>
      by_cases h3 : (parse_float row.robustez_score = 0 ∨ parse_float row.robustez_score = 1
        ∨ parse_float row.robustez_score = 100) <;>
      simp [h1, h2, h3]
  · intro row
    cases h : anomalyOf row <;> simp [detect_anomalies, h]
  · have hbase : parse_float "0,5" = 1/2 := by
      have h : parse_float "0,5" = ((0 : ℕ) : ℚ) + ((5 : ℕ) : ℚ) / 10 ^ 1 := rfl
      rw [h]; norm_num
    have hopt : parse_float "0,4" = 2/5 := by
      have h : parse_float "0,4" = ((0 : ℕ) : ℚ) + ((4 : ℕ) : ℚ) / 10 ^ 1 := rfl
      rw [h]; norm_num
    have hrob : parse_float "0,0" = 0 := by
      have h : parse_float "0,0" = ((0 : ℕ) : ℚ) + ((0 : ℕ) : ℚ) / 10 ^ 1 := rfl
      rw [h]; norm_num
    have hscale : detect_scale [(1 : ℚ)/2, 2/5, 0] = 1 := by
      simp only [detect_scale, List.any_cons, List.any_nil,
        decide_eq_false (by norm_num : ¬((1 : ℚ)/2 > 1)),
        decide_eq_false (by norm_num : ¬((2 : ℚ)/5 > 1)),
        decide_eq_false (by norm_num : ¬((0 : ℚ) > 1))]
      rfl
    have hf50 : format_float ((1 : ℚ)/2 * (100/1)) = "50,0000" := by
      simp only [format_float]
      rw [fmtFixed4_round _ 500000 (by norm_num)]
      decide
    have hf40 : format_float ((2 : ℚ)/5 * (100/1)) = "40,0000" := by
      simp only [format_float]
      rw [fmtFixed4_round _ 400000 (by norm_num)]
      decide
    have hf0 : format_float ((0 : ℚ) * (100/1)) = "0,0000" := by
      simp only [format_float]
      rw [fmtFixed4_round _ 0 (by norm_num)]
      decide
    have hsome : anomalyOf ⟨"r1", "caso", "src", "0,5", "0,4", "0,0"⟩
        = some ⟨"r1", "caso", "src", "50,0000", "40,0000", "0,0000",
            "Opt < Base, Rob < Base, Extremo (0,0000%)"⟩ := by
      simp only [anomalyOf, hbase, hopt, hrob, hscale]
      rw [if_pos (by norm_num : (1 : ℚ) > 0)]
      rw [if_pos (by norm_num : (2 : ℚ)/5 < 1/2)]
      rw [if_pos (by norm_num : (0 : ℚ) < 1/2)]
      rw [if_pos (Or.inl trivial : True ∨ (0 : ℚ) = 1 ∨ (0 : ℚ) = 100)]
      rw [hf50, hf40, hf0]
      rfl
    simp [detect_anomalies, hsome]

/-! ## Decimal round-trip lemmas (for the ledger score claim) -/

theorem digitChar_isDigit (d : ℕ) : (digitChar d).isDigit = true := by
  rcases d with _ | _ | _ | _ | _ | _ | _ | _ | _ | d <;> rfl

theorem digitVal_digitChar (d : ℕ) (h : d < 10) : digitVal (digitChar d) = d := by
  rcases d with _ | _ | _ | _ | _ | _ | _ | _ | _ | d
  · rfl
  · rfl
  · rfl
  · rfl
  · rfl
  · rfl
  · rfl
  · rfl
  · rfl
  · have hd : d = 0 := by omega
    subst hd
    rfl

theorem isDigit_ne_comma {c : Char} (h : c.isDigit = true) : c ≠ ',' := by
  intro hc
  subst hc
  exact absurd h (by decide)

theorem isDigit_ne_minus {c : Char} (h : c.isDigit = true) : c ≠ '-' := by
  intro hc
  subst hc
  exact absurd h (by decide)

theorem isDigit_ne_plus {c : Char} (h : c.isDigit = true) : c ≠ '+' := by
  intro hc
  subst hc
  exact absurd h (by decide)

theorem charsToNat_append_singleton (l : List Char) (c : Char) :
    charsToNat (l ++ [c]) = 10 * charsToNat l + digitVal c := by
  simp [charsToNat, List.foldl_append]

theorem natCharsAux_spec :
    ∀ (fuel n : ℕ), n < fuel →
      charsToNat (natCharsAux fuel n) = n ∧ natCharsAux fuel n ≠ []
        ∧ ∀ c ∈ natCharsAux fuel n, c.isDigit = true := by
  intro fuel
  induction fuel with
  | zero => intro n h; exact absurd h (by omega)
  | succ f ih =>
    intro n hn
    by_cases h10 : n < 10
    · simp only [natCharsAux, if_pos h10]
      refine ⟨?_, by simp, ?_⟩
      · simp [charsToNat, digitVal_digitChar n h10]
      · intro c hc
        simp only [List.mem_singleton] at hc
        subst hc
        exact digitChar_isDigit n
    · have hrec : n / 10 < f := by omega
      obtain ⟨hval, hne, hdig⟩ := ih (n / 10) hrec
      simp only [natCharsAux, if_neg h10]
      refine ⟨?_, by simp, ?_⟩
      · rw [charsToNat_append_singleton, hval, digitVal_digitChar (n % 10) (by omega)]
        omega
      · intro c hc
        rcases List.mem_append.mp hc with hl | hr
        · exact hdig c hl
        · simp only [List.mem_singleton] at hr
          subst hr
          exact digitChar_isDigit (n % 10)

theorem natChars_spec (n : ℕ) :
    charsToNat (natChars n) = n ∧ natChars n ≠ []
      ∧ ∀ c ∈ natChars n, c.isDigit = true :=
  natCharsAux_spec (n + 1) n (by omega)

theorem frac4_digits (m : ℕ) : ∀ c ∈ frac4 m, c.isDigit = true := by
  intro c hc
  simp only [frac4, List.mem_cons, List.not_mem_nil, or_false] at hc
  rcases hc with h | h | h | h <;> subst h <;> exact digitChar_isDigit _

theorem charsToNat_frac4 (m : ℕ) (h : m < 10000) : charsToNat (frac4 m) = m := by
  have h1 : m / 1000 % 10 < 10 := Nat.mod_lt _ (by omega)
  have h2 : m / 100 % 10 < 10 := Nat.mod_lt _ (by omega)
  have h3 : m / 10 % 10 < 10 := Nat.mod_lt _ (by omega)
  have h4 : m % 10 < 10 := Nat.mod_lt _ (by omega)
  simp only [frac4, charsToNat, List.foldl_cons, List.foldl_nil,
    digitVal_digitChar _ h1, digitVal_digitChar _ h2, digitVal_digitChar _ h3,
    digitVal_digitChar _ h4]
  omega

theorem takeWhile_digits_dot (l1 l2 : List Char) (h1 : ∀ c ∈ l1, c.isDigit = true) :
    (l1 ++ '.' :: l2).takeWhile Char.isDigit = l1
    ∧ (l1 ++ '.' :: l2).dropWhile Char.isDigit = '.' :: l2 := by
  induction l1 with
  | nil =>
    constructor
    · rw [List.nil_append, List.takeWhile_cons_of_neg (by decide)]
    · rw [List.nil_append, List.dropWhile_cons_of_neg (by decide)]
  | cons c cs ih =>
    have hc : c.isDigit = true := h1 c (List.mem_cons_self c cs)
    obtain ⟨iht, ihd⟩ := ih (fun c' hc' => h1 c' (List.mem_cons_of_mem c hc'))
    constructor
    · rw [List.cons_append, List.takeWhile_cons_of_pos hc, iht]
    · rw [List.cons_append, List.dropWhile_cons_of_pos hc, ihd]

theorem parseUnsigned_digits_dot (l1 : List Char) (m : ℕ)
    (h1 : ∀ c ∈ l1, c.isDigit = true) (hne : l1 ≠ []) (hm : m < 10000) :
    parseUnsignedChars? (l1 ++ '.' :: frac4 m)
      = some ((charsToNat l1 : ℚ) + (m : ℚ) / 10 ^ 4) := by
  obtain ⟨ht, hd⟩ := takeWhile_digits_dot l1 (frac4 m) h1
  simp only [parseUnsignedChars?, ht, hd]
  rw [if_pos ?_]
  · rw [charsToNat_frac4 m hm]
    have hlen : (frac4 m).length = 4 := rfl
    rw [hlen]
  · have hall : (frac4 m).all Char.isDigit = true := by
      rw [List.all_eq_true]
      exact frac4_digits m
    have hemp : l1.isEmpty = false := by
      cases l1 with
      | nil => exact absurd rfl hne
      | cons a l => rfl
    rw [hall, hemp]
    rfl

theorem pyReplaceChar_undo (l : List Char) (h : ∀ c ∈ l, c ≠ ',') :
    (l.map (fun c => if c = '.' then ',' else c)).map (fun c => if c = ',' then '.' else c)
      = l := by
  induction l with
  | nil => rfl
  | cons c cs ih =>
    have hc : c ≠ ',' := h c (List.mem_cons_self c cs)
    have ihc := ih (fun c' hc' => h c' (List.mem_cons_of_mem c hc'))
    simp only [List.map_cons, ihc]
    by_cases hdot : c = '.'
    · subst hdot
      rfl
    · rw [if_neg hdot, if_neg hc]

/-- The characters of `fmtFixed4 x` before comma substitution: a
possible leading minus, decimal digits, one period. -/
theorem fmtFixed4_chars (x : ℚ) (n : ℤ) (h : round (x * 10000) = n) :
    (fmtFixed4 x).data
      = (if n < 0 then '-' :: (natChars (n.natAbs / 10000) ++ '.' :: frac4 (n.natAbs % 10000))
         else natChars (n.natAbs / 10000) ++ '.' :: frac4 (n.natAbs % 10000)) := by
  rw [fmtFixed4_round x n h]

theorem fmtFixed4_no_comma (x : ℚ) : ∀ c ∈ (fmtFixed4 x).data, c ≠ ',' := by
  intro c hc
  rw [fmtFixed4_chars x (round (x * 10000)) rfl] at hc
  have hbody : ∀ c', c' ∈ natChars ((round (x * 10000)).natAbs / 10000)
        ++ '.' :: frac4 ((round (x * 10000)).natAbs % 10000) → c' ≠ ',' := by
    intro c' hc'
    rcases List.mem_append.mp hc' with hl | hr
    · exact isDigit_ne_comma ((natChars_spec _).2.2 c' hl)
    · rcases List.mem_cons.mp hr with hdot | hfrac
      · subst hdot
        decide
      · exact isDigit_ne_comma (frac4_digits _ c' hfrac)
  by_cases hneg : round (x * 10000) < 0
  · rw [if_pos hneg] at hc
    rcases List.mem_cons.mp hc with hminus | hrest
    · subst hminus
      decide
    · exact hbody c hrest
  · rw [if_neg hneg] at hc
    exact hbody c hc

theorem parseDecimal_digits_head (c : Char) (rest : List Char) (hc : c.isDigit = true) :
    parseDecimalChars? (c :: rest) = parseUnsignedChars? (c :: rest) := by
  simp only [parseDecimalChars?, if_neg (isDigit_ne_minus hc), if_neg (isDigit_ne_plus hc)]

theorem parseDecimal_digits (l1 l2 : List Char) (h1 : ∀ c ∈ l1, c.isDigit = true)
    (hne : l1 ≠ []) :
    parseDecimalChars? (l1 ++ '.' :: l2) = parseUnsignedChars? (l1 ++ '.' :: l2) := by
  cases l1 with
  | nil => exact absurd rfl hne
  | cons c cs =>
    rw [List.cons_append, parseDecimal_digits_head c _ (h1 c (List.mem_cons_self c cs))]

theorem stringDataExt {s t : String} (h : s.data = t.data) : s = t := by
  cases s
  cases t
  exact congrArg String.mk h

theorem fmtFixed4_data_ne_nil (x : ℚ) : (fmtFixed4 x).data ≠ [] := by
  rw [fmtFixed4_chars x (round (x * 10000)) rfl]
  by_cases hneg : round (x * 10000) < 0
  · rw [if_pos hneg]
    simp
  · rw [if_neg hneg]
    intro hnil
    rcases List.append_eq_nil.mp hnil with ⟨h1, _⟩
    exact (natChars_spec _).2.1 h1

theorem parseDecimal_fmtFixed4 (x : ℚ) :
    parseDecimalChars? (fmtFixed4 x).data
      = some ((((round (x * 10000) : ℤ) : ℚ)) / 10000) := by
  set n := round (x * 10000) with hn
  have hb : n.natAbs % 10000 < 10000 := Nat.mod_lt _ (by omega)
  have hcore : parseUnsignedChars? (natChars (n.natAbs / 10000) ++ '.' :: frac4 (n.natAbs % 10000))
      = some (((n.natAbs / 10000 : ℕ) : ℚ) + ((n.natAbs % 10000 : ℕ) : ℚ) / 10 ^ 4) := by
    rw [parseUnsigned_digits_dot (natChars (n.natAbs / 10000)) (n.natAbs % 10000)
      (natChars_spec _).2.2 (natChars_spec _).2.1 hb, (natChars_spec (n.natAbs / 10000)).1]
  have hval : (((n.natAbs / 10000 : ℕ) : ℚ) + ((n.natAbs % 10000 : ℕ) : ℚ) / 10 ^ 4)
      = (n.natAbs : ℚ) / 10000 := by
    have hsplit : (n.natAbs : ℚ)
        = 10000 * ((n.natAbs / 10000 : ℕ) : ℚ) + ((n.natAbs % 10000 : ℕ) : ℚ) := by
      exact_mod_cast (by omega : n.natAbs = 10000 * (n.natAbs / 10000) + n.natAbs % 10000)
    rw [hsplit]
    push_cast
    field_simp
    ring
  rw [fmtFixed4_chars x n hn.symm]
  by_cases hneg : n < 0
  · rw [if_pos hneg]
    have hstep : parseDecimalChars?
        ('-' :: (natChars (n.natAbs / 10000) ++ '.' :: frac4 (n.natAbs % 10000)))
        = (parseUnsignedChars? (natChars (n.natAbs / 10000) ++ '.' :: frac4 (n.natAbs % 10000))).map
            (fun q => -q) := by
      simp only [parseDecimalChars?]
      rw [if_pos trivial]
    rw [hstep, hcore, Option.map_some', hval]
    have hcast : (n.natAbs : ℚ) = -(n : ℚ) := by
      have h' : (n.natAbs : ℤ) = -n := by omega
      have h2 := congrArg (fun z : ℤ => (z : ℚ)) h'
      simp only [Int.cast_natCast, Int.cast_neg] at h2
      exact h2
    rw [hcast]
    ring_nf
  · rw [if_neg hneg,
      parseDecimal_digits _ _ (natChars_spec (n.natAbs / 10000)).2.2
        (natChars_spec (n.natAbs / 10000)).2.1,
      hcore, hval]
    have hcast : (n.natAbs : ℚ) = (n : ℚ) := by
      have h' : (n.natAbs : ℤ) = n := by omega
      have h2 := congrArg (fun z : ℤ => (z : ℚ)) h'
      simp only [Int.cast_natCast] at h2
      exact h2
    rw [hcast]

/-- **C9**: for every score `x`, `parse_float(fmt_score(x))` equals `x`
rounded to 4 decimal places — `fmt_score` writes the value with exactly
four decimals and a comma separator, `parse_float` substitutes the
comma with a period and reads it back; in particular `0.8523`
round-trips exactly. -/
theorem claim9_score_roundtrip :
    (∀ x : ℚ, parse_float (fmt_score x) = ((round (x * 10000) : ℤ) : ℚ) / 10000)
    ∧ parse_float (fmt_score (8523/10000 : ℚ)) = 8523/10000 := by
  have main : ∀ x : ℚ, parse_float (fmt_score x) = ((round (x * 10000) : ℤ) : ℚ) / 10000 := by
    intro x
    have hfs : fmt_score x = pyReplaceChar '.' ',' (fmtFixed4 x) := rfl
    have hne : ¬(fmt_score x = "") := by
      intro h
      have hl := congrArg String.data h
      rw [hfs] at hl
      have : (fmtFixed4 x).data.map (fun c => if c = '.' then ',' else c) = [] := hl
      exact fmtFixed4_data_ne_nil x (List.map_eq_nil.mp this)
    have hundo : pyReplaceChar ',' '.' (fmt_score x) = fmtFixed4 x := by
      apply stringDataExt
      rw [hfs]
      exact pyReplaceChar_undo (fmtFixed4 x).data (fmtFixed4_no_comma x)
    simp only [parse_float, if_neg hne, hundo, pyFloat?, parseDecimal_fmtFixed4 x]
  refine ⟨main, ?_⟩
  rw [main (8523/10000 : ℚ)]
  have h1 : (8523/10000 : ℚ) * 10000 = ((8523 : ℕ) : ℚ) := by
    push_cast
    field_simp
  rw [h1, round_natCast]
  push_cast
  ring

end Reflexio
